import Mathlib

/-!
Auction House — verification of the lifecycle & settlement core.

Shallow embedding of the two business-logic services of the repository:

* `src/backend/services/bid-service/main.py` — bid validation, the bid
  store (append-only list), and the highest-bid query
  (`SELECT ... ORDER BY amount DESC, timestamp DESC LIMIT 1`);
* `src/backend/services/auction-service/main.py` — the auction store,
  price synchronization, status transitions, manual settlement
  (`end_auction_with_winner`), the periodic sweep
  (`auto_update_auction_status`) and the winner lookup.

Monetary amounts (SQLite `REAL`) are modelled as `Int`: every claim is
purely order-theoretic in the amounts.  Timestamps are `Nat`.  Remote
HTTP calls are modelled by passing the remote's reply as an explicit
argument (an `Option`/sum type mirroring what the caller can observe).
-/

deriving instance DecidableEq for Except

/-- Auction status: the `status` column, one of the string literals
`pending`, `live`, `ended` (`shared/models.py`, `AuctionStatus`). -/
inductive AuctionStatus
  | pending
  | live
  | ended
deriving DecidableEq, Repr

/-- One row of the `auctions` table (auction-service `init_db`).
`title`/`description`/`created_at` are omitted: no claim mentions them. -/
structure Auction where
  id : Nat
  startingPrice : Int
  currentPrice : Int
  status : AuctionStatus
  endsAt : Nat
  ownerId : Nat
  winnerId : Option Nat
  winningAmount : Option Int
deriving DecidableEq, Repr

/-- One row of the `bids` table (bid-service `init_db`). -/
structure Bid where
  id : Nat
  userId : Nat
  auctionId : Nat
  amount : Int
  timestamp : Nat
deriving DecidableEq, Repr

namespace BidService

/-- The errors `place_bid` can raise (HTTP 404 / the three 400 details). -/
inductive BidError
  | notFound
  | invalidState
  | priceTooLow (threshold : Int)
  | selfBidForbidden
deriving DecidableEq, Repr

/-- The `data` payload returned by a successful `place_bid`. -/
structure PlaceBidOk where
  bidId : Nat
  auctionId : Nat
  amount : Int
  userId : Nat
deriving DecidableEq, Repr

/-- Observable side effects of `place_bid`, in program order: the SQL
`INSERT INTO bids` and the `update_auction_price` HTTP callback. -/
inductive Action
  | insertBid (b : Bid)
  | priceCallback (auctionId : Nat) (newPrice : Int)
deriving DecidableEq, Repr

/-- Embeds `place_bid` (bid-service `main.py`, lines 86-132).

* `lookup` is the reply of `get_auction_details` (`None` both when the
  auction service answers 404 and on a transport error — the function
  returns `None` in both cases);
* `nextId` models the SQLite autoincrement id, `now` models
  `datetime.now()`;
* `cbOk` is the `Bool` that `update_auction_price` (lines 70-80) returns
  — `False` on a non-200 reply or a transport error.  The source awaits
  it and discards it.

Returns (HTTP result, new bid store, side-effect trace). -/
def place_bid (lookup : Option Auction) (bids : List Bid)
    (userId auctionId : Nat) (amount : Int) (nextId now : Nat) (cbOk : Bool) :
    Except BidError PlaceBidOk × List Bid × List Action :=
  match lookup with
  | none => (.error .notFound, bids, [])
  | some auction =>
    if auction.status ≠ .live then
      (.error .invalidState, bids, [])
    else if amount ≤ auction.currentPrice then
      (.error (.priceTooLow auction.currentPrice), bids, [])
    else if userId = auction.ownerId then
      (.error .selfBidForbidden, bids, [])
    else
      let newBid : Bid := ⟨nextId, userId, auctionId, amount, now⟩
      let _ := cbOk
      (.ok ⟨nextId, auctionId, amount, userId⟩, bids ++ [newBid],
       [.insertBid newBid, .priceCallback auctionId amount])

/-- Row `b` sorts strictly before `c` under `ORDER BY amount DESC,
timestamp DESC`: larger amount, or equal amount and later timestamp. -/
def beats (c b : Bid) : Bool :=
  c.amount < b.amount || (c.amount == b.amount && c.timestamp < b.timestamp)

/-- One step of taking the first row of the sort order. -/
def pickBetter (acc : Option Bid) (b : Bid) : Option Bid :=
  match acc with
  | none => some b
  | some c => if beats c b then some b else some c

/-- The query `SELECT ... ORDER BY amount DESC, timestamp DESC LIMIT 1`
over a list of rows: the fold keeps the row that sorts first (rows tied
on both keys are returned in an unspecified order by SQLite; the fold
keeps the earliest-inserted one). -/
def topBid (rows : List Bid) : Option Bid :=
  rows.foldl pickBetter none

/-- Embeds `get_highest_bid` (bid-service `main.py`, lines 196-231): the
query restricted to the rows of the given auction. -/
def get_highest_bid (bids : List Bid) (auctionId : Nat) : Option Bid :=
  topBid (bids.filter (fun b => b.auctionId == auctionId))

/-- Modelled from the spec's words, for the refinement claim about the
order of `PlaceBid`'s preconditions (spec section 4.1: existence, then
LIVE status, then `amount > current_price` with the threshold in the
error, then `bidderId != owner_id`; first failure wins).  To be compared
with `place_bid` above, which is translated from the source. -/
def place_bid_spec_check (lookup : Option Auction) (userId : Nat)
    (amount : Int) : Option BidError :=
  match lookup with
  | none => some .notFound
  | some a =>
    if a.status ≠ .live then some .invalidState
    else if ¬ amount > a.currentPrice then some (.priceTooLow a.currentPrice)
    else if ¬ userId ≠ a.ownerId then some .selfBidForbidden
    else none

end BidService

namespace AuctionService

/-- What the auction service can observe of its HTTP call to the bid
service's highest-bid endpoint: a 200 reply carrying
`data.highest_bid` (possibly `null`), or anything else (non-200 status,
connection refused, timeout, ...). -/
inductive BidQueryReply
  | ok (highest : Option Bid)
  | transportFailure
deriving DecidableEq, Repr

/-- Embeds `get_highest_bid` (auction-service `main.py`, lines 364-374):
the client wrapper.  It returns the payload on a 200 reply, and `None` both
on a non-200 status and on any exception — a transport failure is
indistinguishable from an explicit "no bids" reply for its callers. -/
def get_highest_bid : BidQueryReply → Option Bid
  | .ok r => r
  | .transportFailure => none

/-- Update every row with the given id (SQL `UPDATE ... WHERE id = ?`;
`id` is the primary key, so at most one row actually matches). -/
def updateById (store : List Auction) (auctionId : Nat)
    (f : Auction → Auction) : List Auction :=
  store.map (fun a => if a.id = auctionId then f a else a)

/-- Embeds `create_auction` (auction-service `main.py`, lines 90-123): inserts a
row with `current_price = starting_price` and status `pending`.
`nextId` models the autoincrement id. -/
def create_auction (store : List Auction) (nextId : Nat)
    (startingPrice : Int) (endsAt ownerId : Nat) : List Auction :=
  store ++ [⟨nextId, startingPrice, startingPrice, .pending, endsAt, ownerId, none, none⟩]

/-- Embeds `update_auction_price` (auction-service `main.py`, lines 231-251):
the internal price-sync endpoint.  It runs the `UPDATE` unconditionally —
no existence check, no comparison with the stored price — and always
reports success. -/
def update_auction_price (store : List Auction) (auctionId : Nat)
    (newPrice : Int) : List Auction :=
  updateById store auctionId (fun a => { a with currentPrice := newPrice })

/-- Parse the `new_status` literal accepted by the status endpoint
(`if new_status not in ['pending', 'live', 'ended']`). -/
def parseStatus : String → Option AuctionStatus
  | "pending" => some .pending
  | "live" => some .live
  | "ended" => some .ended
  | _ => none

/-- Errors of `update_auction_status`: HTTP 400 "Invalid status" and
HTTP 404 "Auction not found". -/
inductive StatusError
  | invalidStatus
  | notFound
deriving DecidableEq, Repr

/-- Embeds `update_auction_status` (auction-service `main.py`, lines 253-286):
validates the literal, checks the row exists, then writes the new status
unconditionally — the current status is read but never compared. -/
def update_auction_status (store : List Auction) (auctionId : Nat)
    (newStatus : String) : Except StatusError (List Auction) :=
  match parseStatus newStatus with
  | none => .error .invalidStatus
  | some st =>
    if store.any (fun a => a.id == auctionId) then
      .ok (updateById store auctionId (fun a => { a with status := st }))
    else
      .error .notFound

/-- A queued winner announcement (`winner_notifications` entries /
`notify_winner` calls; the title is omitted). -/
structure WinnerNotice where
  auctionId : Nat
  winnerUserId : Nat
  winningAmount : Int
deriving DecidableEq, Repr

/-- Close one row the way the sweep's per-auction branch does
(auction-service `main.py`, lines 303-327): a LIVE row past its deadline
is ended, with winner fields written in the same `UPDATE` when the
highest-bid reply carries a bid.  `env` gives, per auction id, the value
of `await get_highest_bid(auction_id)`. -/
def sweepClose (env : Nat → Option Bid) (now : Nat) (a : Auction) : Auction :=
  if a.status = .live ∧ a.endsAt ≤ now then
    match env a.id with
    | some b =>
        { a with status := .ended, winnerId := some b.userId,
                 winningAmount := some b.amount }
    | none => { a with status := .ended }
  else a

/-- The sweep's activation step (`UPDATE auctions SET status = 'live'
WHERE status = 'pending'`). -/
def sweepActivate (a : Auction) : Auction :=
  if a.status = .pending then { a with status := .live } else a

/-- The counts and the notification list of the sweep's `ApiResponse`. -/
structure SweepResult where
  store : List Auction
  pendingToLive : Nat
  liveToEnded : Nat
  notices : List WinnerNotice
deriving DecidableEq, Repr

/-- Embeds `auto_update_auction_status` (auction-service `main.py`, lines
288-358), the sweep: select the LIVE rows with `ends_at <= now`, settle
each one (one `UPDATE` per row, three fields together when a bid
exists), then flip every remaining PENDING row to LIVE, then fire one
notification per settled row that had a bid. -/
def auto_update_auction_status (env : Nat → Option Bid) (now : Nat)
    (store : List Auction) : SweepResult :=
  let closed := store.map (sweepClose env now)
  { store := closed.map sweepActivate
    pendingToLive := (closed.filter (fun a => a.status == .pending)).length
    liveToEnded :=
      (store.filter (fun a => decide (a.status = .live ∧ a.endsAt ≤ now))).length
    notices := store.filterMap (fun a =>
      if a.status = .live ∧ a.endsAt ≤ now then
        (env a.id).map (fun b => ⟨a.id, b.userId, b.amount⟩)
      else none) }

/-- Errors of `end_auction_with_winner`: 404, 403 "Not authorized" and
400 "Auction already ended". -/
inductive EndError
  | notFound
  | notOwner
  | alreadyEnded
deriving DecidableEq, Repr

/-- Result of a successful manual settlement: the new store, the
reported winner fields, and whether `notify_winner` was called. -/
structure SettleOutcome where
  store : List Auction
  winnerId : Option Nat
  winningAmount : Option Int
  notified : Bool
deriving DecidableEq, Repr

/-- Embeds `end_auction_with_winner` (auction-service `main.py`, lines 403-475):
manual settlement.  `highestBid` is the value of
`await get_highest_bid(auction_id)` (see `get_highest_bid` above).  With
a bid, one `UPDATE` writes `status`, `winner_id` and `winning_amount`
together and the winner is notified; with none, only `status` is
written and nobody is notified.  An already-ENDED auction is rejected
with an error before any write. -/
def end_auction_with_winner (store : List Auction) (auctionId userId : Nat)
    (highestBid : Option Bid) : Except EndError SettleOutcome :=
  match store.find? (fun a => a.id == auctionId) with
  | none => .error .notFound
  | some a =>
    if a.ownerId ≠ userId then .error .notOwner
    else if a.status = .ended then .error .alreadyEnded
    else
      match highestBid with
      | some b =>
          .ok ⟨updateById store auctionId (fun x =>
                 { x with status := .ended, winnerId := some b.userId,
                          winningAmount := some b.amount }),
               some b.userId, some b.amount, true⟩
      | none =>
          .ok ⟨updateById store auctionId (fun x => { x with status := .ended }),
               none, none, false⟩

/-- The winner payload of `get_auction_winner`. -/
structure WinnerInfo where
  auctionId : Nat
  winnerId : Nat
  winningAmount : Int
deriving DecidableEq, Repr

/-- Embeds `get_auction_winner` (auction-service `main.py`, lines 477-521): 404
if the row is absent; a non-ENDED auction yields no winner and its
status; an ENDED auction yields the stored winner when `winner_id` is
truthy (Python `if auction['winner_id']:` — `None` and `0` both read as
no winner; `winning_amount` defaults like the stored value). -/
def get_auction_winner (store : List Auction) (auctionId : Nat) :
    Except StatusError (Option WinnerInfo × AuctionStatus) :=
  match store.find? (fun a => a.id == auctionId) with
  | none => .error .notFound
  | some a =>
    if a.status ≠ .ended then .ok (none, a.status)
    else
      match a.winnerId with
      | some w =>
          if w = 0 then .ok (none, a.status)
          else .ok (some ⟨auctionId, w, a.winningAmount.getD 0⟩, a.status)
      | none => .ok (none, a.status)

end AuctionService

/-!
Helper lemmas about the highest-bid selection.
-/

namespace BidService

theorem beats_eq_true_iff (c b : Bid) :
    beats c b = true ↔
      (c.amount < b.amount ∨ (c.amount = b.amount ∧ c.timestamp < b.timestamp)) := by
  simp [beats, Bool.or_eq_true, Bool.and_eq_true, decide_eq_true_eq, beq_iff_eq]

theorem beats_eq_false_iff (c b : Bid) :
    beats c b = false ↔
      (b.amount ≤ c.amount ∧ (c.amount = b.amount → b.timestamp ≤ c.timestamp)) := by
  rw [show (beats c b = false) ↔ ¬ (beats c b = true) by cases beats c b <;> simp]
  rw [beats_eq_true_iff]
  omega

theorem not_beats_trans {x y z : Bid} (h1 : beats x y = false)
    (h2 : beats y z = false) : beats x z = false := by
  rw [beats_eq_false_iff] at h1 h2 ⊢
  omega

theorem beats_true_not_beats {c b r : Bid} (h1 : beats c b = true)
    (h2 : beats r b = false) : beats r c = false := by
  rw [beats_eq_true_iff] at h1
  rw [beats_eq_false_iff] at h2 ⊢
  omega

/-- The fold that implements the `LIMIT 1` query, started from an
incumbent row, returns a row that is in the list or is the incumbent and
that no row of the list (nor the incumbent) sorts strictly before. -/
theorem foldl_pickBetter_spec (rows : List Bid) (c : Bid) :
    ∃ r, rows.foldl pickBetter (some c) = some r ∧ (r = c ∨ r ∈ rows) ∧
      beats r c = false ∧ ∀ x ∈ rows, beats r x = false := by
  induction rows generalizing c with
  | nil =>
    refine ⟨c, rfl, Or.inl rfl, ?_, by simp⟩
    rw [beats_eq_false_iff]
    omega
  | cons b bs ih =>
    cases hcb : beats c b with
    | false =>
      obtain ⟨r, hr, hmem, hrc, hall⟩ := ih c
      refine ⟨r, ?_, ?_, hrc, ?_⟩
      · simpa [pickBetter, hcb] using hr
      · rcases hmem with h | h
        · exact Or.inl h
        · exact Or.inr (List.mem_cons_of_mem _ h)
      · intro x hx
        rcases List.mem_cons.mp hx with h | h
        · exact h ▸ not_beats_trans hrc hcb
        · exact hall x h
    | true =>
      obtain ⟨r, hr, hmem, hrb, hall⟩ := ih b
      refine ⟨r, ?_, ?_, beats_true_not_beats hcb hrb, ?_⟩
      · simpa [pickBetter, hcb] using hr
      · rcases hmem with h | h
        · exact Or.inr (h ▸ List.mem_cons_self _ _)
        · exact Or.inr (List.mem_cons_of_mem _ h)
      · intro x hx
        rcases List.mem_cons.mp hx with h | h
        · exact h ▸ hrb
        · exact hall x h

/-- The selected row belongs to the list, and no row of the list sorts
strictly before it. -/
theorem topBid_spec (rows : List Bid) (b : Bid) (h : topBid rows = some b) :
    b ∈ rows ∧ ∀ x ∈ rows, beats b x = false := by
  cases rows with
  | nil => simp [topBid] at h
  | cons c cs =>
    obtain ⟨r, hr, hmem, hrc, hall⟩ := foldl_pickBetter_spec cs c
    have hfold : topBid (c :: cs) = cs.foldl pickBetter (some c) := by
      simp [topBid, List.foldl_cons, pickBetter]
    rw [hfold, hr] at h
    obtain rfl : r = b := by injection h
    constructor
    · rcases hmem with h' | h'
      · exact h' ▸ List.mem_cons_self _ _
      · exact List.mem_cons_of_mem _ h'
    · intro x hx
      rcases List.mem_cons.mp hx with h' | h'
      · exact h' ▸ hrc
      · exact hall x h'

/-- A nonempty list always yields a selected row. -/
theorem topBid_isSome (rows : List Bid) (h : rows ≠ []) :
    (topBid rows).isSome = true := by
  cases rows with
  | nil => exact absurd rfl h
  | cons c cs =>
    obtain ⟨r, hr, -, -, -⟩ := foldl_pickBetter_spec cs c
    have hfold : topBid (c :: cs) = cs.foldl pickBetter (some c) := by
      simp [topBid, List.foldl_cons, pickBetter]
    rw [hfold, hr]
    rfl

end BidService

/-!
Claim C1 — highest-bid selection and the settled winner.
-/

/-- C1, counterexample: two bids of the same amount on auction 1, the
earlier one by user 1 at time 1, the later one by user 2 at time 2.  The
highest-bid query returns the LATER bid (`ORDER BY amount DESC,
timestamp DESC`), and settlement therefore records user 2 — not the
earliest max-amount bidder — as the winner. -/
theorem C1_counterexample :
    BidService.get_highest_bid [⟨1, 1, 1, 100, 1⟩, ⟨2, 2, 1, 100, 2⟩] 1 =
      some ⟨2, 2, 1, 100, 2⟩ ∧
    AuctionService.end_auction_with_winner [⟨1, 50, 100, .live, 5, 7, none, none⟩] 1 7
        (AuctionService.get_highest_bid
          (.ok (BidService.get_highest_bid [⟨1, 1, 1, 100, 1⟩, ⟨2, 2, 1, 100, 2⟩] 1))) =
      .ok ⟨[⟨1, 50, 100, .ended, 5, 7, some 2, some 100⟩], some 2, some 100, true⟩ := by
  decide

/-- C1, as amended: for every auction with at least one recorded bid,
`get_highest_bid` returns a recorded bid of that auction with maximum
amount, and when two or more bids share that maximum amount it returns
one with the LATEST timestamp (last-come-first-served); after
settlement driven by that query, `winner_id` is that bid's bidder and
`winning_amount` equals its amount. -/
theorem C1_highest_bid_max_amount_latest_timestamp :
    (∀ bids aid b, b ∈ bids → b.auctionId = aid →
       (BidService.get_highest_bid bids aid).isSome = true) ∧
    (∀ bids aid b, BidService.get_highest_bid bids aid = some b →
       b ∈ bids ∧ b.auctionId = aid ∧
       ∀ b' ∈ bids, b'.auctionId = aid →
         b'.amount ≤ b.amount ∧ (b.amount = b'.amount → b'.timestamp ≤ b.timestamp)) ∧
    (∀ store bids aid u out b,
       BidService.get_highest_bid bids aid = some b →
       AuctionService.end_auction_with_winner store aid u
           (AuctionService.get_highest_bid (.ok (BidService.get_highest_bid bids aid))) =
         .ok out →
       out.winnerId = some b.userId ∧ out.winningAmount = some b.amount) := by
  refine ⟨?_, ?_, ?_⟩
  · intro bids aid b hb hbid
    apply BidService.topBid_isSome
    apply List.ne_nil_of_mem (a := b)
    simp [List.mem_filter, hb, hbid]
  · intro bids aid b h
    obtain ⟨hmem, hall⟩ := BidService.topBid_spec _ _ h
    rw [List.mem_filter] at hmem
    obtain ⟨hb, hbid⟩ := hmem
    refine ⟨hb, by simpa using hbid, ?_⟩
    intro b' hb' hbid'
    have hx : b' ∈ bids.filter (fun x => x.auctionId == aid) := by
      simp [List.mem_filter, hb', hbid']
    have := hall b' hx
    rw [BidService.beats_eq_false_iff] at this
    exact this
  · intro store bids aid u out b h1 h2
    rw [h1] at h2
    simp only [AuctionService.get_highest_bid] at h2
    unfold AuctionService.end_auction_with_winner at h2
    split at h2
    · exact absurd h2 (by simp)
    · split at h2
      · exact absurd h2 (by simp)
      · split at h2
        · exact absurd h2 (by simp)
        · simp only [Except.ok.injEq] at h2
          rw [← h2]
          exact ⟨rfl, rfl⟩

/-- C1, witness: on the concrete two-bid store above, the amended
theorem applies with its hypotheses discharged. -/
theorem C1_highest_bid_max_amount_latest_timestamp_witness :
    (BidService.get_highest_bid [⟨1, 1, 1, 100, 1⟩, ⟨2, 2, 1, 100, 2⟩] 1).isSome = true ∧
    ((2 : Int) ≤ 100 ∧
     (∀ b' ∈ [(⟨1, 1, 1, 100, 1⟩ : Bid), ⟨2, 2, 1, 100, 2⟩], b'.auctionId = 1 →
        b'.amount ≤ 100 ∧ (100 = b'.amount → b'.timestamp ≤ 2))) ∧
    ((⟨[⟨1, 50, 100, .ended, 5, 7, some 2, some 100⟩], some 2, some 100, true⟩ :
        AuctionService.SettleOutcome).winnerId = some 2) := by
  refine ⟨?_, ⟨by decide, ?_⟩, ?_⟩
  · exact C1_highest_bid_max_amount_latest_timestamp.1
      [⟨1, 1, 1, 100, 1⟩, ⟨2, 2, 1, 100, 2⟩] 1 ⟨1, 1, 1, 100, 1⟩ (by decide) (by decide)
  · have h := (C1_highest_bid_max_amount_latest_timestamp.2.1
      [⟨1, 1, 1, 100, 1⟩, ⟨2, 2, 1, 100, 2⟩] 1 ⟨2, 2, 1, 100, 2⟩ (by decide)).2.2
    exact h
  · have h := C1_highest_bid_max_amount_latest_timestamp.2.2
      [⟨1, 50, 100, .live, 5, 7, none, none⟩] [⟨1, 1, 1, 100, 1⟩, ⟨2, 2, 1, 100, 2⟩] 1 7
      ⟨[⟨1, 50, 100, .ended, 5, 7, some 2, some 100⟩], some 2, some 100, true⟩
      ⟨2, 2, 1, 100, 2⟩ (by decide) (by decide)
    exact h.1

/-!
Claim C5 — order of the `place_bid` preconditions.
-/

/-- C5: `place_bid` checks its preconditions exactly in the spec's
order, first failure winning — existence (`NotFound`), LIVE status
(`InvalidState`), `amount > current_price` (`PriceTooLow` carrying the
current price as the rejected threshold), bidder distinct from the owner
(`SelfBidForbidden`); in particular a bid with `amount <=
current_price` on a LIVE auction yields `PriceTooLow`, and any bid on a
PENDING or ENDED auction yields `InvalidState` regardless of amount. -/
theorem C5_place_bid_precondition_order :
    (∀ lookup bids userId auctionId amount nextId now cbOk,
      (BidService.place_bid lookup bids userId auctionId amount nextId now cbOk).1 =
        match BidService.place_bid_spec_check lookup userId amount with
        | some e => .error e
        | none => .ok ⟨nextId, auctionId, amount, userId⟩) ∧
    (∀ a bids userId auctionId amount nextId now cbOk,
      a.status = .pending ∨ a.status = .ended →
      (BidService.place_bid (some a) bids userId auctionId amount nextId now cbOk).1 =
        .error .invalidState) ∧
    (∀ a bids userId auctionId amount nextId now cbOk,
      a.status = .live → amount ≤ a.currentPrice →
      (BidService.place_bid (some a) bids userId auctionId amount nextId now cbOk).1 =
        .error (.priceTooLow a.currentPrice)) := by
  refine ⟨?_, ?_, ?_⟩
  · intro lookup bids u aid m nid now cbOk
    cases lookup with
    | none => rfl
    | some a =>
      by_cases h1 : a.status = .live
      · by_cases h2 : m ≤ a.currentPrice
        · simp [BidService.place_bid, BidService.place_bid_spec_check, h1, h2, not_lt]
        · by_cases h3 : u = a.ownerId
          · simp [BidService.place_bid, BidService.place_bid_spec_check, h1, h2, h3,
              not_lt, not_not]
          · simp [BidService.place_bid, BidService.place_bid_spec_check, h1, h2, h3,
              not_lt, not_not]
      · simp [BidService.place_bid, BidService.place_bid_spec_check, h1]
  · intro a bids u aid m nid now cbOk h
    rcases h with h | h <;> simp [BidService.place_bid, h]
  · intro a bids u aid m nid now cbOk h1 h2
    simp [BidService.place_bid, h1, h2]

/-- C5, witness: the three parts applied at concrete inputs. -/
theorem C5_place_bid_precondition_order_witness :
    (BidService.place_bid (some ⟨1, 100, 100, .live, 10, 7, none, none⟩) [] 2 1 150 1 0 true).1 =
      .ok ⟨1, 1, 150, 2⟩ ∧
    (BidService.place_bid (some ⟨1, 100, 100, .pending, 10, 7, none, none⟩) [] 2 1 500 1 0 true).1 =
      .error .invalidState ∧
    (BidService.place_bid (some ⟨1, 100, 150, .live, 10, 7, none, none⟩) [] 2 1 120 1 0 true).1 =
      .error (.priceTooLow 150) := by
  refine ⟨?_, ?_, ?_⟩
  · have h := C5_place_bid_precondition_order.1
      (some ⟨1, 100, 100, .live, 10, 7, none, none⟩) [] 2 1 150 1 0 true
    simpa using h
  · exact C5_place_bid_precondition_order.2.1
      ⟨1, 100, 100, .pending, 10, 7, none, none⟩ [] 2 1 500 1 0 true (Or.inl rfl)
  · exact C5_place_bid_precondition_order.2.2
      ⟨1, 100, 150, .live, 10, 7, none, none⟩ [] 2 1 120 1 0 true rfl (by decide)

/-!
Claim C6 — the bid record precedes the price-sync callback, and the
callback's outcome never fails the bid.
-/

/-- Unfolding equation for `place_bid` on a missing auction. -/
theorem place_bid_none_eq (bids : List Bid)
    (u aid : Nat) (m : Int) (nid now : Nat) (cbOk : Bool) :
    BidService.place_bid none bids u aid m nid now cbOk =
      (.error .notFound, bids, []) := rfl

/-- Unfolding equation for `place_bid` on a found auction, with the
`let` bindings reduced away, for case analysis. -/
theorem place_bid_some_eq (a : Auction) (bids : List Bid)
    (u aid : Nat) (m : Int) (nid now : Nat) (cbOk : Bool) :
    BidService.place_bid (some a) bids u aid m nid now cbOk =
      (if a.status ≠ .live then (.error .invalidState, bids, [])
       else if m ≤ a.currentPrice then (.error (.priceTooLow a.currentPrice), bids, [])
       else if u = a.ownerId then (.error .selfBidForbidden, bids, [])
       else (.ok ⟨nid, aid, m, u⟩, bids ++ [⟨nid, u, aid, m, now⟩],
             [.insertBid ⟨nid, u, aid, m, now⟩, .priceCallback aid m])) := rfl

/-- C6: a successful `place_bid` returns the same result whatever the
price-synchronization callback reported (the awaited boolean is
discarded), and on success the bid row is appended to the bid store with
the `INSERT` occurring before the `update_auction_price` callback in the
side-effect trace. -/
theorem C6_bid_recorded_before_callback :
    (∀ lookup bids userId auctionId amount nextId now,
       BidService.place_bid lookup bids userId auctionId amount nextId now true =
         BidService.place_bid lookup bids userId auctionId amount nextId now false) ∧
    (∀ lookup bids userId auctionId amount nextId now cbOk r bids2 acts,
       BidService.place_bid lookup bids userId auctionId amount nextId now cbOk =
         (.ok r, bids2, acts) →
       r = ⟨nextId, auctionId, amount, userId⟩ ∧
       bids2 = bids ++ [⟨nextId, userId, auctionId, amount, now⟩] ∧
       acts = [.insertBid ⟨nextId, userId, auctionId, amount, now⟩,
               .priceCallback auctionId amount]) := by
  constructor
  · intro lookup bids u aid m nid now
    cases lookup with
    | none => rfl
    | some a => rfl
  · intro lookup bids u aid m nid now cbOk r bids2 acts h
    cases lookup with
    | none => rw [place_bid_none_eq] at h; simp at h
    | some a =>
      rw [place_bid_some_eq] at h
      by_cases h1 : a.status ≠ .live
      · rw [if_pos h1] at h; simp at h
      · rw [if_neg h1] at h
        by_cases h2 : m ≤ a.currentPrice
        · rw [if_pos h2] at h; simp at h
        · rw [if_neg h2] at h
          by_cases h3 : u = a.ownerId
          · rw [if_pos h3] at h; simp at h
          · rw [if_neg h3] at h
            simp only [Prod.mk.injEq, Except.ok.injEq] at h
            obtain ⟨h4, h5, h6⟩ := h
            exact ⟨h4.symm, h5.symm, h6.symm⟩

/-- C6, witness: a concrete successful bid placement. -/
theorem C6_bid_recorded_before_callback_witness :
    BidService.place_bid (some ⟨1, 100, 100, .live, 10, 7, none, none⟩)
        [⟨1, 3, 1, 90, 0⟩] 2 1 150 5 4 false =
      (.ok ⟨5, 1, 150, 2⟩, [⟨1, 3, 1, 90, 0⟩] ++ [⟨5, 2, 1, 150, 4⟩],
       [.insertBid ⟨5, 2, 1, 150, 4⟩, .priceCallback 1 150]) ∧
    (⟨5, 1, 150, 2⟩ : BidService.PlaceBidOk) = ⟨5, 1, 150, 2⟩ ∧
    [(⟨1, 3, 1, 90, 0⟩ : Bid)] ++ [⟨5, 2, 1, 150, 4⟩] =
      [⟨1, 3, 1, 90, 0⟩] ++ [⟨5, 2, 1, 150, 4⟩] ∧
    [BidService.Action.insertBid ⟨5, 2, 1, 150, 4⟩,
     BidService.Action.priceCallback 1 150] =
      [.insertBid ⟨5, 2, 1, 150, 4⟩, .priceCallback 1 150] := by
  refine ⟨by decide, ?_⟩
  exact C6_bid_recorded_before_callback.2 (some ⟨1, 100, 100, .live, 10, 7, none, none⟩)
    [⟨1, 3, 1, 90, 0⟩] 2 1 150 5 4 false ⟨5, 1, 150, 2⟩
    ([⟨1, 3, 1, 90, 0⟩] ++ [⟨5, 2, 1, 150, 4⟩])
    [.insertBid ⟨5, 2, 1, 150, 4⟩, .priceCallback 1 150] (by decide)

/-!
Claim C10 — a rejected bid has no observable side effect.
-/

/-- C10: whenever `place_bid` rejects a bid — auction not found, not
LIVE, amount too low, or self-bid — the bid store is returned unchanged
and the side-effect trace is empty: no row inserted, no
price-synchronization callback issued. -/
theorem C10_rejected_bid_no_side_effects :
    ∀ lookup bids userId auctionId amount nextId now cbOk e bids2 acts,
      BidService.place_bid lookup bids userId auctionId amount nextId now cbOk =
        (.error e, bids2, acts) →
      bids2 = bids ∧ acts = [] := by
  intro lookup bids u aid m nid now cbOk e bids2 acts h
  cases lookup with
  | none =>
    rw [place_bid_none_eq] at h
    simp only [Prod.mk.injEq] at h
    exact ⟨h.2.1.symm, h.2.2.symm⟩
  | some a =>
    rw [place_bid_some_eq] at h
    by_cases h1 : a.status ≠ .live
    · rw [if_pos h1] at h
      simp only [Prod.mk.injEq] at h
      exact ⟨h.2.1.symm, h.2.2.symm⟩
    · rw [if_neg h1] at h
      by_cases h2 : m ≤ a.currentPrice
      · rw [if_pos h2] at h
        simp only [Prod.mk.injEq] at h
        exact ⟨h.2.1.symm, h.2.2.symm⟩
      · rw [if_neg h2] at h
        by_cases h3 : u = a.ownerId
        · rw [if_pos h3] at h
          simp only [Prod.mk.injEq] at h
          exact ⟨h.2.1.symm, h.2.2.symm⟩
        · rw [if_neg h3] at h
          simp at h

/-- C10, witness: a concrete self-bid rejection leaves the store
unchanged and issues nothing. -/
theorem C10_rejected_bid_no_side_effects_witness :
    [(⟨1, 3, 1, 90, 0⟩ : Bid)] = [⟨1, 3, 1, 90, 0⟩] ∧
    ([] : List BidService.Action) = [] := by
  exact C10_rejected_bid_no_side_effects
    (some ⟨1, 100, 100, .live, 10, 7, none, none⟩) [⟨1, 3, 1, 90, 0⟩] 7 1 150 5 4 true
    .selfBidForbidden [⟨1, 3, 1, 90, 0⟩] [] (by decide)

/-!
Helper lemmas about the auction store operations.
-/

namespace AuctionService

/-- Updating by id rewrites exactly the row that `find?` locates, when
the update keeps the id. -/
theorem find?_updateById (store : List Auction) (aid : Nat) (f : Auction → Auction)
    (hf : ∀ x, (f x).id = x.id) (a : Auction)
    (h : store.find? (fun x => x.id == aid) = some a) :
    (updateById store aid f).find? (fun x => x.id == aid) = some (f a) := by
  induction store with
  | nil => simp at h
  | cons y ys ih =>
    by_cases hy : y.id = aid
    · rw [List.find?_cons_of_pos _ (by simpa using hy)] at h
      injection h with h
      subst h
      simp only [updateById, List.map_cons]
      rw [if_pos hy, List.find?_cons_of_pos _ (by simp [hf y, hy])]
    · rw [List.find?_cons_of_neg _ (by simpa using hy)] at h
      simp only [updateById, List.map_cons]
      rw [if_neg hy, List.find?_cons_of_neg _ (by simpa using hy)]
      exact ih h

/-- Unfolding equation for `end_auction_with_winner` when the auction is
absent. -/
theorem end_auction_not_found_eq (store : List Auction) (aid u : Nat)
    (hb : Option Bid) (hfind : store.find? (fun x => x.id == aid) = none) :
    end_auction_with_winner store aid u hb = .error .notFound := by
  unfold end_auction_with_winner
  rw [hfind]

/-- Unfolding equation for `end_auction_with_winner` when the auction is
found. -/
theorem end_auction_found_eq (store : List Auction) (aid u : Nat)
    (hb : Option Bid) (a : Auction)
    (hfind : store.find? (fun x => x.id == aid) = some a) :
    end_auction_with_winner store aid u hb =
      (if a.ownerId ≠ u then .error .notOwner
       else if a.status = .ended then .error .alreadyEnded
       else
         match hb with
         | some b =>
             .ok ⟨updateById store aid (fun x =>
                    { x with status := .ended, winnerId := some b.userId,
                             winningAmount := some b.amount }),
                  some b.userId, some b.amount, true⟩
         | none =>
             .ok ⟨updateById store aid (fun x => { x with status := .ended }),
                  none, none, false⟩) := by
  unfold end_auction_with_winner
  rw [hfind]

/-- A found, owned, already-ENDED auction is rejected by the manual
settlement endpoint before any write. -/
theorem end_auction_ended_rejected (store : List Auction) (aid u : Nat)
    (hb : Option Bid) (a : Auction)
    (hfind : store.find? (fun x => x.id == aid) = some a)
    (hown : a.ownerId = u) (hst : a.status = .ended) :
    end_auction_with_winner store aid u hb = .error .alreadyEnded := by
  rw [end_auction_found_eq store aid u hb a hfind]
  rw [if_neg (by simp [hown]), if_pos hst]

/-- Unfolding equation for `get_auction_winner` when the auction is
found. -/
theorem get_auction_winner_found_eq (store : List Auction) (aid : Nat)
    (a : Auction) (hfind : store.find? (fun x => x.id == aid) = some a) :
    get_auction_winner store aid =
      (if a.status ≠ .ended then .ok (none, a.status)
       else
         match a.winnerId with
         | some w =>
             if w = 0 then .ok (none, a.status)
             else .ok (some ⟨aid, w, a.winningAmount.getD 0⟩, a.status)
         | none => .ok (none, a.status)) := by
  unfold get_auction_winner
  rw [hfind]

/-- A sweep over a store whose auctions are all ENDED changes nothing:
no activation, no closure, no notification. -/
theorem sweep_ended_noop (env : Nat → Option Bid) (now : Nat)
    (store : List Auction) (h : ∀ a ∈ store, a.status = .ended) :
    auto_update_auction_status env now store = ⟨store, 0, 0, []⟩ := by
  have hclose : store.map (sweepClose env now) = store := by
    have h1 : store.map (sweepClose env now) = store.map id :=
      List.map_congr_left (fun a ha => by simp [sweepClose, h a ha])
    rw [h1, List.map_id]
  have hact : store.map sweepActivate = store := by
    have h1 : store.map sweepActivate = store.map id :=
      List.map_congr_left (fun a ha => by simp [sweepActivate, h a ha])
    rw [h1, List.map_id]
  have hp : store.filter (fun a => a.status == AuctionStatus.pending) = [] :=
    List.filter_eq_nil_iff.mpr (fun a ha => by simp [h a ha])
  have hl : store.filter (fun a => decide (a.status = .live ∧ a.endsAt ≤ now)) = [] :=
    List.filter_eq_nil_iff.mpr (fun a ha => by simp [h a ha])
  have hn : store.filterMap (fun a =>
      if a.status = .live ∧ a.endsAt ≤ now then
        (env a.id).map (fun b => (⟨a.id, b.userId, b.amount⟩ : WinnerNotice))
      else none) = [] :=
    List.filterMap_eq_nil_iff.mpr (fun a ha => if_neg (by simp [h a ha]))
  simp only [auto_update_auction_status]
  rw [hclose, hact, hp, hl, hn]
  rfl

/-- One element of the store after a sweep pass: if the element was not
an expired PENDING auction, a second pass leaves it alone — it is not
PENDING, not an expired LIVE auction, and both sweep steps fix it. -/
theorem sweep_step_fix (env : Nat → Option Bid) (now : Nat) (a : Auction)
    (h : a.status = .pending → now < a.endsAt) :
    sweepClose env now (sweepActivate (sweepClose env now a)) =
        sweepActivate (sweepClose env now a) ∧
    sweepActivate (sweepActivate (sweepClose env now a)) =
        sweepActivate (sweepClose env now a) ∧
    (sweepActivate (sweepClose env now a)).status ≠ .pending ∧
    ¬ ((sweepActivate (sweepClose env now a)).status = .live ∧
       (sweepActivate (sweepClose env now a)).endsAt ≤ now) := by
  cases hst : a.status with
  | pending =>
    have hlt := h hst
    have hnle : ¬ a.endsAt ≤ now := by omega
    simp [sweepClose, sweepActivate, hst, hnle]
  | live =>
    by_cases hle : a.endsAt ≤ now
    · cases henv : env a.id with
      | none => simp [sweepClose, sweepActivate, hst, hle, henv]
      | some b => simp [sweepClose, sweepActivate, hst, hle, henv]
    · simp [sweepClose, sweepActivate, hst, hle]
  | ended =>
    simp [sweepClose, sweepActivate, hst]

end AuctionService

/-!
Claim C2 — the three settlement fields as one write, and the winner/ENDED
invariant.
-/

/-- C2, counterexample: settle a live auction with a bid (winner user 2
is recorded), then call the status endpoint with `pending`.  The status
is overwritten while `winner_id` stays set, so "winner_id is set iff
status = ENDED and a bid existed at settlement" does not hold for every
reachable state. -/
theorem C2_counterexample :
    AuctionService.end_auction_with_winner
        [⟨1, 100, 150, .live, 5, 7, none, none⟩] 1 7 (some ⟨1, 2, 1, 150, 3⟩) =
      .ok ⟨[⟨1, 100, 150, .ended, 5, 7, some 2, some 150⟩], some 2, some 150, true⟩ ∧
    AuctionService.update_auction_status
        [⟨1, 100, 150, .ended, 5, 7, some 2, some 150⟩] 1 "pending" =
      .ok [⟨1, 100, 150, .pending, 5, 7, some 2, some 150⟩] ∧
    (⟨1, 100, 150, .pending, 5, 7, some 2, some 150⟩ : Auction).winnerId = some 2 ∧
    (⟨1, 100, 150, .pending, 5, 7, some 2, some 150⟩ : Auction).status ≠ .ended := by
  decide

/-- C2, as amended: each settlement write is a single per-row update
that sets `status = ENDED`, `winner_id` and `winning_amount` together
when a highest bid exists, and sets only `status = ENDED` (leaving the
winner fields untouched) when none exists — in both the manual endpoint
and the sweep; so immediately after settlement `winner_id` is set iff a
bid existed.  The biconditional is not preserved by later calls to the
raw status endpoint (see the counterexample). -/
theorem C2_settlement_three_fields_one_update :
    (∀ store aid u b out a,
       store.find? (fun x => x.id == aid) = some a →
       AuctionService.end_auction_with_winner store aid u (some b) = .ok out →
       out.store.find? (fun x => x.id == aid) =
         some { a with status := .ended, winnerId := some b.userId,
                       winningAmount := some b.amount } ∧
       out.winnerId = some b.userId ∧ out.winningAmount = some b.amount) ∧
    (∀ store aid u out a,
       store.find? (fun x => x.id == aid) = some a →
       AuctionService.end_auction_with_winner store aid u none = .ok out →
       out.store.find? (fun x => x.id == aid) = some { a with status := .ended } ∧
       out.winnerId = none ∧ out.winningAmount = none) ∧
    (∀ env now a b, a.status = .live → a.endsAt ≤ now → env a.id = some b →
       AuctionService.sweepClose env now a =
         { a with status := .ended, winnerId := some b.userId,
                  winningAmount := some b.amount }) ∧
    (∀ env now a, a.status = .live → a.endsAt ≤ now → env a.id = none →
       AuctionService.sweepClose env now a = { a with status := .ended }) := by
  refine ⟨?_, ?_, ?_, ?_⟩
  · intro store aid u b out a hfind h
    rw [AuctionService.end_auction_found_eq store aid u (some b) a hfind] at h
    by_cases h1 : a.ownerId ≠ u
    · rw [if_pos h1] at h; simp at h
    · rw [if_neg h1] at h
      by_cases h2 : a.status = .ended
      · rw [if_pos h2] at h; simp at h
      · rw [if_neg h2] at h
        simp only [Except.ok.injEq] at h
        subst h
        refine ⟨?_, rfl, rfl⟩
        exact AuctionService.find?_updateById store aid
          (fun x => { x with status := .ended, winnerId := some b.userId,
                             winningAmount := some b.amount })
          (fun x => rfl) a hfind
  · intro store aid u out a hfind h
    rw [AuctionService.end_auction_found_eq store aid u none a hfind] at h
    by_cases h1 : a.ownerId ≠ u
    · rw [if_pos h1] at h; simp at h
    · rw [if_neg h1] at h
      by_cases h2 : a.status = .ended
      · rw [if_pos h2] at h; simp at h
      · rw [if_neg h2] at h
        simp only [Except.ok.injEq] at h
        subst h
        refine ⟨?_, rfl, rfl⟩
        exact AuctionService.find?_updateById store aid
          (fun x => { x with status := .ended }) (fun x => rfl) a hfind
  · intro env now a b h1 h2 henv
    simp [AuctionService.sweepClose, h1, h2, henv]
  · intro env now a h1 h2 henv
    simp [AuctionService.sweepClose, h1, h2, henv]

/-- C2, witness: the amended theorem applied to a concrete settlement
with a bid, one without, and the two sweep branches. -/
theorem C2_settlement_three_fields_one_update_witness :
    ([⟨1, 100, 150, .ended, 5, 7, some 2, some 150⟩] :
        List Auction).find? (fun x => x.id == 1) =
      some ⟨1, 100, 150, .ended, 5, 7, some 2, some 150⟩ ∧
    ([⟨1, 100, 100, .ended, 5, 7, none, none⟩] :
        List Auction).find? (fun x => x.id == 1) =
      some ⟨1, 100, 100, .ended, 5, 7, none, none⟩ ∧
    AuctionService.sweepClose (fun _ => some ⟨1, 2, 1, 150, 3⟩) 10
        ⟨1, 100, 150, .live, 5, 7, none, none⟩ =
      ⟨1, 100, 150, .ended, 5, 7, some 2, some 150⟩ ∧
    AuctionService.sweepClose (fun _ => none) 10
        ⟨1, 100, 100, .live, 5, 7, none, none⟩ =
      ⟨1, 100, 100, .ended, 5, 7, none, none⟩ := by
  refine ⟨?_, ?_, ?_, ?_⟩
  · exact (C2_settlement_three_fields_one_update.1
      [⟨1, 100, 150, .live, 5, 7, none, none⟩] 1 7 ⟨1, 2, 1, 150, 3⟩
      ⟨[⟨1, 100, 150, .ended, 5, 7, some 2, some 150⟩], some 2, some 150, true⟩
      ⟨1, 100, 150, .live, 5, 7, none, none⟩ (by decide) (by decide)).1
  · exact (C2_settlement_three_fields_one_update.2.1
      [⟨1, 100, 100, .live, 5, 7, none, none⟩] 1 7
      ⟨[⟨1, 100, 100, .ended, 5, 7, none, none⟩], none, none, false⟩
      ⟨1, 100, 100, .live, 5, 7, none, none⟩ (by decide) (by decide)).1
  · exact C2_settlement_three_fields_one_update.2.2.1 (fun _ => some ⟨1, 2, 1, 150, 3⟩) 10
      ⟨1, 100, 150, .live, 5, 7, none, none⟩ ⟨1, 2, 1, 150, 3⟩ rfl (by decide) rfl
  · exact C2_settlement_three_fields_one_update.2.2.2 (fun _ => none) 10
      ⟨1, 100, 100, .live, 5, 7, none, none⟩ rfl (by decide) rfl

/-!
Claim C3 — settlement on an already-ENDED auction.
-/

/-- C3, counterexample: invoking the manual settlement endpoint on an
auction whose status is already ENDED returns the HTTP 400 error
"Auction already ended" — an error, not a no-op reply carrying the
previously stored winner. -/
theorem C3_counterexample :
    AuctionService.end_auction_with_winner
        [⟨1, 100, 150, .ended, 5, 7, some 2, some 150⟩] 1 7 (some ⟨1, 2, 1, 150, 3⟩) =
      .error .alreadyEnded := by
  decide

/-- C3, as amended: re-settling an ENDED auction performs no state
change and emits no second notification, but the manual endpoint
rejects it with an `already ended` error instead of returning the
stored winner: a second `end_auction_with_winner` call after a
successful one (by the same owner) fails with that error; a sweep over
settled auctions returns the store unchanged with zero counts and no
notification; the stored winner remains readable only through the
separate winner-lookup endpoint. -/
theorem C3_second_settlement_rejected_state_unchanged :
    (∀ store aid u hb hb2 out a,
       store.find? (fun x => x.id == aid) = some a → a.ownerId = u →
       AuctionService.end_auction_with_winner store aid u hb = .ok out →
       AuctionService.end_auction_with_winner out.store aid u hb2 =
         .error .alreadyEnded) ∧
    (∀ env now store, (∀ a ∈ store, a.status = .ended) →
       AuctionService.auto_update_auction_status env now store = ⟨store, 0, 0, []⟩) ∧
    (∀ store aid a w, store.find? (fun x => x.id == aid) = some a →
       a.status = .ended → a.winnerId = some w → w ≠ 0 →
       AuctionService.get_auction_winner store aid =
         .ok (some ⟨aid, w, a.winningAmount.getD 0⟩, .ended)) := by
  refine ⟨?_, ?_, ?_⟩
  · intro store aid u hb hb2 out a hfind hown h
    rw [AuctionService.end_auction_found_eq store aid u hb a hfind] at h
    by_cases h1 : a.ownerId ≠ u
    · rw [if_pos h1] at h; simp at h
    · rw [if_neg h1] at h
      by_cases h2 : a.status = .ended
      · rw [if_pos h2] at h; simp at h
      · rw [if_neg h2] at h
        cases hb with
        | some b =>
          simp only [Except.ok.injEq] at h
          subst h
          refine AuctionService.end_auction_ended_rejected _ aid u hb2
            { a with status := .ended, winnerId := some b.userId,
                     winningAmount := some b.amount } ?_ hown rfl
          exact AuctionService.find?_updateById store aid
            (fun x => { x with status := .ended, winnerId := some b.userId,
                               winningAmount := some b.amount })
            (fun x => rfl) a hfind
        | none =>
          simp only [Except.ok.injEq] at h
          subst h
          refine AuctionService.end_auction_ended_rejected _ aid u hb2
            { a with status := .ended } ?_ hown rfl
          exact AuctionService.find?_updateById store aid
            (fun x => { x with status := .ended }) (fun x => rfl) a hfind
  · exact AuctionService.sweep_ended_noop
  · intro store aid a w hfind hst hw hw0
    rw [AuctionService.get_auction_winner_found_eq store aid a hfind]
    rw [if_neg (by simp [hst]), hst, hw]
    simp [hw0]

/-- C3, witness: settling a live one-auction store and then settling it
again yields the already-ended error; the sweep on the settled store is
a no-op; the winner lookup still reports the stored winner. -/
theorem C3_second_settlement_rejected_state_unchanged_witness :
    AuctionService.end_auction_with_winner
        [⟨1, 100, 150, .ended, 5, 7, some 2, some 150⟩] 1 7 none =
      .error .alreadyEnded ∧
    AuctionService.auto_update_auction_status (fun _ => none) 10
        [⟨1, 100, 150, .ended, 5, 7, some 2, some 150⟩] =
      ⟨[⟨1, 100, 150, .ended, 5, 7, some 2, some 150⟩], 0, 0, []⟩ ∧
    AuctionService.get_auction_winner
        [⟨1, 100, 150, .ended, 5, 7, some 2, some 150⟩] 1 =
      .ok (some ⟨1, 2, 150⟩, .ended) := by
  refine ⟨?_, ?_, ?_⟩
  · exact C3_second_settlement_rejected_state_unchanged.1
      [⟨1, 100, 150, .live, 5, 7, none, none⟩] 1 7 (some ⟨1, 2, 1, 150, 3⟩) none
      ⟨[⟨1, 100, 150, .ended, 5, 7, some 2, some 150⟩], some 2, some 150, true⟩
      ⟨1, 100, 150, .live, 5, 7, none, none⟩ (by decide) rfl (by decide)
  · exact C3_second_settlement_rejected_state_unchanged.2.1 (fun _ => none) 10
      [⟨1, 100, 150, .ended, 5, 7, some 2, some 150⟩] (by decide)
  · exact C3_second_settlement_rejected_state_unchanged.2.2
      [⟨1, 100, 150, .ended, 5, 7, some 2, some 150⟩] 1
      ⟨1, 100, 150, .ended, 5, 7, some 2, some 150⟩ 2 (by decide) rfl rfl (by decide)

/-!
Claim C4 — transport failure of the highest-bid query during settlement.
-/

/-- C4, counterexample: the auction service's highest-bid client maps a
transport failure and an explicit "no bids" reply to the same value
(`None`), and settlement driven by a transport failure closes the
auction with no winner — there is no `SettlementIncomplete` outcome. -/
theorem C4_counterexample :
    AuctionService.get_highest_bid .transportFailure =
      AuctionService.get_highest_bid (.ok none) ∧
    AuctionService.end_auction_with_winner [⟨1, 100, 100, .live, 5, 7, none, none⟩] 1 7
        (AuctionService.get_highest_bid .transportFailure) =
      .ok ⟨[⟨1, 100, 100, .ended, 5, 7, none, none⟩], none, none, false⟩ := by
  decide

/-- C4, as amended: during settlement a transport or availability
failure of the highest-bid query is NOT distinguished from an explicit
"no bids" reply — the client wrapper returns `None` for both, the
manual settlement behaves identically under the two replies, and the
sweep closes an expired LIVE auction with no winner when every query
fails in transport. -/
theorem C4_transport_failure_treated_as_no_bids :
    (∀ store aid u,
       AuctionService.end_auction_with_winner store aid u
           (AuctionService.get_highest_bid .transportFailure) =
         AuctionService.end_auction_with_winner store aid u
           (AuctionService.get_highest_bid (.ok none))) ∧
    (∀ now a, a.status = .live → a.endsAt ≤ now →
       AuctionService.sweepClose
           (fun _ => AuctionService.get_highest_bid .transportFailure) now a =
         { a with status := .ended }) := by
  constructor
  · intro store aid u
    rfl
  · intro now a h1 h2
    simp [AuctionService.sweepClose, AuctionService.get_highest_bid, h1, h2]

/-- C4, witness: the amended theorem at a concrete store and a concrete
expired live auction. -/
theorem C4_transport_failure_treated_as_no_bids_witness :
    AuctionService.end_auction_with_winner [⟨1, 100, 100, .live, 5, 7, none, none⟩] 1 7
        (AuctionService.get_highest_bid .transportFailure) =
      AuctionService.end_auction_with_winner [⟨1, 100, 100, .live, 5, 7, none, none⟩] 1 7
        (AuctionService.get_highest_bid (.ok none)) ∧
    AuctionService.sweepClose
        (fun _ => AuctionService.get_highest_bid .transportFailure) 10
        ⟨1, 100, 100, .live, 5, 7, none, none⟩ =
      ⟨1, 100, 100, .ended, 5, 7, none, none⟩ := by
  constructor
  · exact C4_transport_failure_treated_as_no_bids.1
      [⟨1, 100, 100, .live, 5, 7, none, none⟩] 1 7
  · exact C4_transport_failure_treated_as_no_bids.2 10
      ⟨1, 100, 100, .live, 5, 7, none, none⟩ rfl (by decide)

/-!
Claim C7 — the `current_price >= starting_price` invariant.
-/

/-- C7, counterexample: the internal price endpoint writes any value
unconditionally.  One call on a live auction with `starting_price =
100` drops `current_price` to 50, violating both `current_price >=
starting_price` and monotonicity while LIVE. -/
theorem C7_counterexample :
    AuctionService.update_auction_price [⟨1, 100, 100, .live, 10, 7, none, none⟩] 1 50 =
      [⟨1, 100, 50, .live, 10, 7, none, none⟩] ∧
    (50 : Int) < 100 := by
  decide

/-- C7, as amended: the invariant holds for bid-driven operation
sequences but not for arbitrary calls of the internal price endpoint —
creation initializes `current_price = starting_price`; every
price-synchronization callback issued by a successful `place_bid`
carries an amount strictly above the validated `current_price`; and
applying the price endpoint with such a strictly-larger amount
preserves `current_price >= starting_price` and raises the touched
row's price.  The raw endpoint itself accepts any value (see the
counterexample). -/
theorem C7_price_invariant_bid_driven_only :
    (∀ store nextId startingPrice endsAt ownerId x,
       x ∈ AuctionService.create_auction store nextId startingPrice endsAt ownerId →
       x ∈ store ∨
         (x.currentPrice = startingPrice ∧ x.startingPrice = startingPrice ∧
          x.status = .pending)) ∧
    (∀ lookup bids userId auctionId amount nextId now cbOk aid2 p,
       BidService.Action.priceCallback aid2 p ∈
         (BidService.place_bid lookup bids userId auctionId amount nextId now cbOk).2.2 →
       ∃ a, lookup = some a ∧ a.status = .live ∧ a.currentPrice < p ∧
         aid2 = auctionId) ∧
    (∀ store aid p,
       (∀ x ∈ store, x.startingPrice ≤ x.currentPrice) →
       (∀ x ∈ store, x.id = aid → x.currentPrice < p) →
       ∀ x ∈ AuctionService.update_auction_price store aid p,
         x.startingPrice ≤ x.currentPrice ∧ (x.id = aid → x.currentPrice = p)) := by
  refine ⟨?_, ?_, ?_⟩
  · intro store nid sp ea oid x hx
    simp only [AuctionService.create_auction, List.mem_append,
      List.mem_singleton] at hx
    rcases hx with hx | hx
    · exact Or.inl hx
    · subst hx
      exact Or.inr ⟨rfl, rfl, rfl⟩
  · intro lookup bids u aid m nid now cbOk aid2 p hmem
    cases lookup with
    | none => rw [place_bid_none_eq] at hmem; simp at hmem
    | some a =>
      rw [place_bid_some_eq] at hmem
      by_cases h1 : a.status ≠ .live
      · rw [if_pos h1] at hmem; simp at hmem
      · rw [if_neg h1] at hmem
        by_cases h2 : m ≤ a.currentPrice
        · rw [if_pos h2] at hmem; simp at hmem
        · rw [if_neg h2] at hmem
          by_cases h3 : u = a.ownerId
          · rw [if_pos h3] at hmem; simp at hmem
          · rw [if_neg h3] at hmem
            simp only [List.mem_cons, List.not_mem_nil, or_false] at hmem
            rcases hmem with hmem | hmem
            · exact absurd hmem (by simp)
            · obtain ⟨rfl, rfl⟩ : aid2 = aid ∧ p = m := by
                injection hmem with h4 h5
                exact ⟨h4, h5⟩
              exact ⟨a, rfl, not_not.mp h1, lt_of_not_le h2, rfl⟩
  · intro store aid p hinv hlt x hx
    simp only [AuctionService.update_auction_price, AuctionService.updateById,
      List.mem_map] at hx
    obtain ⟨y, hy, rfl⟩ := hx
    by_cases hid : y.id = aid
    · rw [if_pos hid]
      have h1 := hinv y hy
      have h2 := hlt y hy hid
      exact ⟨by simpa using le_of_lt (lt_of_le_of_lt h1 h2), fun _ => rfl⟩
    · rw [if_neg hid]
      exact ⟨hinv y hy, fun h => absurd h hid⟩

/-- C7, witness: the amended theorem at a concrete creation, a concrete
successful bid, and a concrete bid-driven price update. -/
theorem C7_price_invariant_bid_driven_only_witness :
    ((⟨1, 100, 100, .pending, 10, 7, none, none⟩ : Auction) ∈
        ([] : List Auction) ∨
      ((⟨1, 100, 100, .pending, 10, 7, none, none⟩ : Auction).currentPrice = 100 ∧
       (⟨1, 100, 100, .pending, 10, 7, none, none⟩ : Auction).startingPrice = 100 ∧
       (⟨1, 100, 100, .pending, 10, 7, none, none⟩ : Auction).status = .pending)) ∧
    (∃ a : Auction, some (⟨1, 100, 100, .live, 10, 7, none, none⟩ : Auction) = some a ∧
       a.status = .live ∧ a.currentPrice < 150 ∧ (1 : Nat) = 1) ∧
    (∀ x ∈ AuctionService.update_auction_price
        [⟨1, 100, 100, .live, 10, 7, none, none⟩] 1 150,
       x.startingPrice ≤ x.currentPrice ∧ (x.id = 1 → x.currentPrice = 150)) := by
  refine ⟨?_, ?_, ?_⟩
  · exact C7_price_invariant_bid_driven_only.1 [] 1 100 10 7
      ⟨1, 100, 100, .pending, 10, 7, none, none⟩ (by decide)
  · exact C7_price_invariant_bid_driven_only.2.1
      (some ⟨1, 100, 100, .live, 10, 7, none, none⟩) [] 2 1 150 5 4 true 1 150
      (by decide)
  · exact C7_price_invariant_bid_driven_only.2.2
      [⟨1, 100, 100, .live, 10, 7, none, none⟩] 1 150
      (by decide) (by decide)

/-!
Claim C8 — is ENDED terminal?
-/

/-- C8, counterexample: the status endpoint happily moves an ENDED
auction back to LIVE — it validates only the literal and the row's
existence, never the current status, so ENDED is not terminal and the
operation does not fail with `InvalidState`. -/
theorem C8_counterexample :
    AuctionService.update_auction_status
        [⟨1, 100, 150, .ended, 5, 7, some 2, some 150⟩] 1 "live" =
      .ok [⟨1, 100, 150, .live, 5, 7, some 2, some 150⟩] := by
  decide

/-- C8, as amended: ENDED is terminal only for the sweep and the manual
settlement endpoint — the sweep leaves a store of ENDED auctions
untouched and `end_auction_with_winner` rejects an ENDED auction with
an `already ended` error — while the generic status-transition
operation overwrites the status of any existing auction (ENDED
included) for every valid literal instead of failing with
`InvalidState`. -/
theorem C8_status_endpoint_overwrites_ended :
    (∀ store aid lit st,
       AuctionService.parseStatus lit = some st →
       store.any (fun a => a.id == aid) = true →
       AuctionService.update_auction_status store aid lit =
         .ok (AuctionService.updateById store aid (fun a => { a with status := st }))) ∧
    (∀ store aid u hb a,
       store.find? (fun x => x.id == aid) = some a → a.ownerId = u →
       a.status = .ended →
       AuctionService.end_auction_with_winner store aid u hb =
         .error .alreadyEnded) ∧
    (∀ env now store, (∀ a ∈ store, a.status = .ended) →
       AuctionService.auto_update_auction_status env now store = ⟨store, 0, 0, []⟩) := by
  refine ⟨?_, ?_, ?_⟩
  · intro store aid lit st hparse hany
    unfold AuctionService.update_auction_status
    rw [hparse]
    simp [hany]
  · intro store aid u hb a hfind hown hst
    exact AuctionService.end_auction_ended_rejected store aid u hb a hfind hown hst
  · exact AuctionService.sweep_ended_noop

/-- C8, witness: the amended theorem at a concrete ENDED auction. -/
theorem C8_status_endpoint_overwrites_ended_witness :
    AuctionService.update_auction_status
        [⟨1, 100, 150, .ended, 5, 7, some 2, some 150⟩] 1 "pending" =
      .ok (AuctionService.updateById [⟨1, 100, 150, .ended, 5, 7, some 2, some 150⟩] 1
        (fun a => { a with status := .pending })) ∧
    AuctionService.end_auction_with_winner
        [⟨1, 100, 150, .ended, 5, 7, some 2, some 150⟩] 1 7 none =
      .error .alreadyEnded ∧
    AuctionService.auto_update_auction_status (fun _ => none) 99
        [⟨1, 100, 150, .ended, 5, 7, some 2, some 150⟩] =
      ⟨[⟨1, 100, 150, .ended, 5, 7, some 2, some 150⟩], 0, 0, []⟩ := by
  refine ⟨?_, ?_, ?_⟩
  · exact C8_status_endpoint_overwrites_ended.1
      [⟨1, 100, 150, .ended, 5, 7, some 2, some 150⟩] 1 "pending" .pending rfl (by decide)
  · exact C8_status_endpoint_overwrites_ended.2.1
      [⟨1, 100, 150, .ended, 5, 7, some 2, some 150⟩] 1 7 none
      ⟨1, 100, 150, .ended, 5, 7, some 2, some 150⟩ (by decide) rfl rfl
  · exact C8_status_endpoint_overwrites_ended.2.2 (fun _ => none) 99
      [⟨1, 100, 150, .ended, 5, 7, some 2, some 150⟩] (by decide)

/-!
Claim C9 — is the sweep idempotent?
-/

/-- C9, counterexample: a PENDING auction whose `ends_at` (5) has
already passed at sweep time (now = 10).  The first sweep only
activates it (PENDING to LIVE); the second sweep then closes it (LIVE
to ENDED) — one additional state change, so the second sweep is not a
no-op. -/
theorem C9_counterexample :
    AuctionService.auto_update_auction_status (fun _ => none) 10
        [⟨1, 100, 100, .pending, 5, 7, none, none⟩] =
      ⟨[⟨1, 100, 100, .live, 5, 7, none, none⟩], 1, 0, []⟩ ∧
    AuctionService.auto_update_auction_status (fun _ => none) 10
        [⟨1, 100, 100, .live, 5, 7, none, none⟩] =
      ⟨[⟨1, 100, 100, .ended, 5, 7, none, none⟩], 0, 1, []⟩ := by
  decide

/-- C9, as amended: a second sweep run in immediate succession
activates no auctions, closes no auctions, emits no notifications and
leaves the store unchanged PROVIDED no auction was PENDING with an
already-passed `ends_at` at the first run; for such expired PENDING
auctions the first run activates them and the second run closes them
(see the counterexample). -/
theorem C9_second_sweep_noop_without_expired_pending :
    ∀ env now store,
      (∀ a ∈ store, a.status = .pending → now < a.endsAt) →
      AuctionService.auto_update_auction_status env now
          (AuctionService.auto_update_auction_status env now store).store =
        ⟨(AuctionService.auto_update_auction_status env now store).store, 0, 0, []⟩ := by
  intro env now store h
  have hx : ∀ x ∈ (AuctionService.auto_update_auction_status env now store).store,
      AuctionService.sweepClose env now x = x ∧
      AuctionService.sweepActivate x = x ∧
      x.status ≠ .pending ∧
      ¬ (x.status = .live ∧ x.endsAt ≤ now) := by
    intro x hmem
    have hS1 : (AuctionService.auto_update_auction_status env now store).store =
        store.map (fun a =>
          AuctionService.sweepActivate (AuctionService.sweepClose env now a)) := by
      simp [AuctionService.auto_update_auction_status, List.map_map, Function.comp]
    rw [hS1] at hmem
    obtain ⟨a, ha, rfl⟩ := List.mem_map.mp hmem
    exact AuctionService.sweep_step_fix env now a (h a ha)
  set S1 := (AuctionService.auto_update_auction_status env now store).store with hS1def
  have hclose : S1.map (AuctionService.sweepClose env now) = S1 := by
    have h1 : S1.map (AuctionService.sweepClose env now) = S1.map id :=
      List.map_congr_left (fun a ha => (hx a ha).1)
    rw [h1, List.map_id]
  have hact : S1.map AuctionService.sweepActivate = S1 := by
    have h1 : S1.map AuctionService.sweepActivate = S1.map id :=
      List.map_congr_left (fun a ha => (hx a ha).2.1)
    rw [h1, List.map_id]
  have hp : S1.filter (fun a => a.status == AuctionStatus.pending) = [] :=
    List.filter_eq_nil_iff.mpr (fun a ha => by simpa using (hx a ha).2.2.1)
  have hl : S1.filter (fun a => decide (a.status = .live ∧ a.endsAt ≤ now)) = [] :=
    List.filter_eq_nil_iff.mpr (fun a ha => by simpa using (hx a ha).2.2.2)
  have hn : S1.filterMap (fun a =>
      if a.status = .live ∧ a.endsAt ≤ now then
        (env a.id).map (fun b =>
          (⟨a.id, b.userId, b.amount⟩ : AuctionService.WinnerNotice))
      else none) = [] :=
    List.filterMap_eq_nil_iff.mpr (fun a ha => if_neg (hx a ha).2.2.2)
  show AuctionService.auto_update_auction_status env now S1 = ⟨S1, 0, 0, []⟩
  simp only [AuctionService.auto_update_auction_status]
  rw [hclose, hact, hp, hl, hn]
  rfl

/-- C9, witness: a store whose only PENDING auction expires in the
future; the second sweep is a no-op on the first sweep's output. -/
theorem C9_second_sweep_noop_without_expired_pending_witness :
    AuctionService.auto_update_auction_status (fun _ => none) 10
        (AuctionService.auto_update_auction_status (fun _ => none) 10
          [⟨1, 100, 100, .pending, 20, 7, none, none⟩,
           ⟨2, 50, 80, .live, 3, 8, none, none⟩]).store =
      ⟨(AuctionService.auto_update_auction_status (fun _ => none) 10
          [⟨1, 100, 100, .pending, 20, 7, none, none⟩,
           ⟨2, 50, 80, .live, 3, 8, none, none⟩]).store, 0, 0, []⟩ := by
  exact C9_second_sweep_noop_without_expired_pending (fun _ => none) 10
    [⟨1, 100, 100, .pending, 20, 7, none, none⟩, ⟨2, 50, 80, .live, 3, 8, none, none⟩]
    (by decide)
